import Mathlib

/-!
Shallow embedding of the FlexLayout core model (node tree, action reducer,
drop-target resolution, serialization round trip), translated from the
TypeScript sources `Model.ts` (src/unnamed/part_007), `Node.ts`
(src/unnamed/part_001) and `Action.ts` (src/src/model/Action.ts).

Embedding conventions:
- TypeScript object references are identified by node id (ids are unique in
  every well-formed model; `Model.addNode` throws on duplicates).
- JS numbers are embedded as `Int` (the claims under study only use integral
  values and order/equality comparisons).
- Subclass methods absent from the provided sources (drop / delete bodies)
  are abstracted as an `Env` of state transformers universally quantified in
  the theorems; small attribute getters and `tidy` are modelled from the
  spec where noted.
- Fallible JS code (TypeError on undefined dereference, thrown Error) is
  embedded with `Except`.
-/

namespace Flex

/-- Attribute values stored in a node's sparse attribute record
(string | number | boolean | undefined). -/
inductive AttrValue where
  | boolV (b : Bool)
  | numV (n : Int)
  | strV (s : String)
  | undefV
deriving DecidableEq, Repr

/-- Sparse attribute record, as in `AttributeRecord` (string-keyed bag). -/
abbrev Attrs := List (String × AttrValue)

/-- Reads an attribute; a missing key behaves as JS `undefined`. -/
def getAttr (a : Attrs) (k : String) : AttrValue :=
  match a.lookup k with
  | some v => v
  | none => .undefV

/-- Stores an attribute, replacing an existing binding for the key. -/
def setAttr : Attrs → String → AttrValue → Attrs
  | [], k, v => [(k, v)]
  | (k', v') :: rest, k, v =>
      if k' = k then (k, v) :: rest else (k', v') :: setAttr rest k v

/-- Merges a JSON bag into an attribute record key by key, as
`updateAttrs` does (each supplied key overwrites the stored value). -/
def mergeAttrs (a : Attrs) (json : Attrs) : Attrs :=
  json.foldl (fun acc kv => setAttr acc kv.1 kv.2) a

/-- Rectangle value `{x, y, width, height}`. -/
structure Rect where
  x : Int
  y : Int
  width : Int
  height : Int
deriving DecidableEq, Repr

/-- Modelled from the spec: `Rect.contains` (the Rect class is not among the
provided sources); containment test of a point in the rectangle. -/
def Rect.containsPt (r : Rect) (px py : Int) : Bool :=
  r.x ≤ px && px < r.x + r.width && r.y ≤ py && py < r.y + r.height

/-- The empty rectangle used for freshly constructed nodes. -/
def Rect.emptyRect : Rect := ⟨0, 0, 0, 0⟩

/-- The four concrete node kinds (`RowNode`, `TabSetNode`, `TabNode`,
`BorderNode`); `instanceof` tests become kind tests. -/
inductive NodeKind where
  | row | tabset | tab | border
deriving DecidableEq, Repr

/-- Dock locations; `DockLocation` enum {TOP, BOTTOM, LEFT, RIGHT, CENTER}. -/
inductive DockLocation where
  | top | bottom | left | right | center
deriving DecidableEq, Repr

/-- A node of the layout tree: kind, sparse attribute record (ids live in the
attribute record under key "id", as in `Node.setId`), current layout
rectangle, and ordered children. -/
inductive LNode where
  | mk (kind : NodeKind) (attrs : Attrs) (rect : Rect) (children : List LNode)

def LNode.kind : LNode → NodeKind
  | .mk k _ _ _ => k

def LNode.attrs : LNode → Attrs
  | .mk _ a _ _ => a

def LNode.rect : LNode → Rect
  | .mk _ _ r _ => r

def LNode.children : LNode → List LNode
  | .mk _ _ _ cs => cs

/-- Rebuilds a node with a transformed attribute record. -/
def LNode.mapAttrs (f : Attrs → Attrs) : LNode → LNode
  | .mk k a r cs => .mk k (f a) r cs

/-- Rebuilds a node with transformed children. -/
def LNode.mapChildren (f : List LNode → List LNode) : LNode → LNode
  | .mk k a r cs => .mk k a r (f cs)

/-- `Node.getId`: reads the id attribute. The source lazily generates a
random "#"-prefixed id when absent; the embedding assumes ids are assigned
(every node appearing in the theorems carries an explicit id). -/
def LNode.getId (n : LNode) : String :=
  match getAttr n.attrs "id" with
  | .strV s => s
  | _ => ""

/-- `Node.getType`: the type tag string of the node kind. -/
def LNode.getTypeStr (n : LNode) : String :=
  match n.kind with
  | .row => "row"
  | .tabset => "tabset"
  | .tab => "tab"
  | .border => "border"

/-- Reads a boolean attribute with a default (the attribute/model-default
fallback chain collapsed to the resolved default). -/
def LNode.boolAttr (n : LNode) (k : String) (dflt : Bool) : Bool :=
  match getAttr n.attrs k with
  | .boolV b => b
  | _ => dflt

/-- Modelled from the spec: `isEnableDrop` of the drop-target node kinds
(TabSetNode/BorderNode sources not provided); an attribute-backed flag whose
resolved default is true (`tabSetEnableDrop`/`borderEnableDrop` defaults). -/
def LNode.isEnableDrop (n : LNode) : Bool :=
  n.boolAttr "enableDrop" true

/-- `Node.isEnableDivide` returns true in the base class; modelled from the
spec for TabSetNode, which overrides it with an attribute-backed flag. -/
def LNode.isEnableDivide (n : LNode) : Bool :=
  match n.kind with
  | .tabset => n.boolAttr "enableDivide" true
  | _ => true

/-- `getName` of draggable nodes: the name attribute, if set. -/
def LNode.getName (n : LNode) : Option String :=
  match getAttr n.attrs "name" with
  | .strV s => some s
  | _ => none

/-- Modelled from the spec: `getSelected` (selected index, -1 = none); the
theorems always supply the stored value explicitly. -/
def LNode.getSelected (n : LNode) : Int :=
  match getAttr n.attrs "selected" with
  | .numV v => v
  | _ => -1

/-- `Node.setSelected`: stores the selected index attribute. -/
def LNode.setSelectedAttr (v : Int) (n : LNode) : LNode :=
  n.mapAttrs (fun a => setAttr a "selected" (.numV v))

/-- `Node.setWeight` with a possibly-undefined JS argument (out-of-range
array access in the ADJUST_WEIGHTS loop yields `undefined`). -/
def LNode.setWeightAttr (w : Option Int) (n : LNode) : LNode :=
  n.mapAttrs (fun a => setAttr a "weight" (match w with
    | some v => .numV v
    | none => .undefV))

/-- Modelled from the spec: `TabNode.isEnableClose`, attribute-backed with
resolved default true (`tabEnableClose` global default, part_007 line 485). -/
def LNode.isEnableClose (n : LNode) : Bool :=
  n.boolAttr "enableClose" true

mutual
/-- `Node.forEachNode`: pre-order traversal collecting every node. -/
def collectNodes : LNode → List LNode
  | .mk k a r cs => .mk k a r cs :: collectNodesList cs

def collectNodesList : List LNode → List LNode
  | [] => []
  | c :: cs => collectNodes c ++ collectNodesList cs
end

mutual
/-- Finds the first node of the subtree with the given id (pre-order). -/
def findById : LNode → String → Option LNode
  | .mk k a r cs, target =>
      if (LNode.mk k a r cs).getId = target then some (.mk k a r cs)
      else findByIdList cs target

def findByIdList : List LNode → String → Option LNode
  | [], _ => none
  | c :: cs, target =>
      match findById c target with
      | some n => some n
      | none => findByIdList cs target
end

mutual
/-- Finds the parent of the node with the given id in the subtree. -/
def findParentIn : LNode → String → Option LNode
  | .mk k a r cs, target =>
      if cs.any (fun c => c.getId = target) then some (.mk k a r cs)
      else findParentInList cs target

def findParentInList : List LNode → String → Option LNode
  | [], _ => none
  | c :: cs, target =>
      match findParentIn c target with
      | some n => some n
      | none => findParentInList cs target
end

mutual
/-- Rewrites every node of the subtree whose id matches (ids are unique in
well-formed models, so this mirrors mutation through a shared reference). -/
def updateById : LNode → String → (LNode → LNode) → LNode
  | .mk k a r cs, target, f =>
      let here := LNode.mk k a r (updateByIdList cs target f)
      if here.getId = target then f here else here

def updateByIdList : List LNode → String → (LNode → LNode) → List LNode
  | [], _, _ => []
  | c :: cs, target, f => updateById c target f :: updateByIdList cs target f
end

/-- Drop information `{node, location, index}` (outline rect and class hint
omitted: they are advisory rendering data). -/
structure DropInfo where
  node : LNode
  location : DockLocation
  index : Int

/-- `Node.canDockInto` (part_001 lines 224-245): the legality gate evaluated
before accepting a DropInfo, with the model's optional allow-drop predicate
passed explicitly (the source reads it from `this.model`). -/
def canDockInto (onAllowDrop : Option (LNode → DropInfo → Bool))
    (dragNode : LNode) (dropInfo : Option DropInfo) : Bool :=
  match dropInfo with
  | none => true
  | some di =>
    if di.location = .center && di.node.isEnableDrop = false then
      false
    else if di.location = .center && dragNode.getTypeStr = "tabset"
        && (dragNode.getName).isSome then
      false
    else if di.location ≠ .center && di.node.isEnableDivide = false then
      false
    else
      match onAllowDrop with
      | some p => p dragNode di
      | none => true

mutual
/-- `Node.findDropTargetNode` (part_001 lines 195-216): drop-target
resolution over the subtree. The per-kind `canDrop` geometric test is
abstracted as the parameter `cd`; `maxN` is the model's currently maximized
tabset (re-read at every level in the source, hence threaded unchanged). -/
def nodeFindDropTarget (cd : LNode → Int → Int → Option DropInfo)
    (maxN : Option LNode) : LNode → Int → Int → Option DropInfo
  | .mk k a r cs, x, y =>
      if Rect.containsPt r x y then
        match maxN with
        | some mN => cd mN x y
        | none =>
          match cd (.mk k a r cs) x y with
          | some d => some d
          | none => nodeFindDropTargetList cd maxN cs x y
      else none

def nodeFindDropTargetList (cd : LNode → Int → Int → Option DropInfo)
    (maxN : Option LNode) : List LNode → Int → Int → Option DropInfo
  | [], _, _ => none
  | c :: cs, x, y =>
      match nodeFindDropTarget cd maxN c x y with
      | some d => some d
      | none => nodeFindDropTargetList cd maxN cs x y
end

mutual
/-- Modelled from the spec: the `tidy` cleanup pass (RowNode.tidy is not
among the provided sources). Recursively: an empty Row child is removed, an
empty auto-delete TabSet child is removed, and a Row child with exactly one
Row child is replaced by that child. -/
def tidyNode : LNode → LNode
  | .mk k a r cs => .mk k a r (tidyChildren cs)

def tidyChildren : List LNode → List LNode
  | [] => []
  | c :: cs =>
      let c' := tidyNode c
      if c'.kind = .row && c'.children.isEmpty then
        tidyChildren cs
      else if c'.kind = .tabset && c'.children.isEmpty
          && c'.boolAttr "enableDeleteWhenEmpty" true then
        tidyChildren cs
      else
        (match c'.kind, c'.children with
         | .row, [onlyChild] =>
             if onlyChild.kind = .row then onlyChild else c'
         | _, _ => c') :: tidyChildren cs
end

/-- The model state: root row, border set (the ≤4 BorderNodes with their tab
children), the id→node index, the maximized/active tabset pointers (stored
as ids: object identity is id identity under the unique-id invariant), the
global attribute record, and the registered change listeners (abstracted as
opaque tokens: only their identity and count are observable here). -/
structure ModelState where
  root : LNode
  borders : List LNode
  idMap : List (String × LNode)
  maximizedTabSet : Option String
  activeTabSet : Option String
  globalAttrs : Attrs
  listeners : List Nat

/-- `Model.updateIdMap` / `Model.visitNodes`: the index rebuilt by a full
traversal of the borders first, then the root row (part_007 lines 270-273,
396-402). -/
def buildIdMap (borders : List LNode) (root : LNode) : List (String × LNode) :=
  (collectNodesList borders ++ collectNodes root).map (fun n => (n.getId, n))

/-- `Model.getNodeById`: lookup in the id index. -/
def getNodeById (m : ModelState) (id : String) : Option LNode :=
  (m.idMap.lookup id)

/-- `Model.getMaximizedTabset`: returns the stored pointer unconditionally
(part_007 lines 228-230). -/
def getMaximizedTabset (m : ModelState) : Option String :=
  m.maximizedTabSet

/-- `Model.getActiveTabset` (part_007 lines 218-223): the stored pointer is
returned only when its id still resolves through the id index. -/
def getActiveTabset (m : ModelState) : Option String :=
  match m.activeTabSet with
  | some i => if (getNodeById m i).isSome then some i else none
  | none => none

/-- The maximized tabset as a node (resolving the stored id), as used by
`findDropTargetNode` via `getMaximizedTabset`. -/
def maximizedNode (m : ModelState) : Option LNode :=
  match m.maximizedTabSet with
  | some i => findByIdList m.borders i |>.orElse (fun _ => findById m.root i)
  | none => none

/-- Applies a node rewrite at an id throughout the model (root tree and
border trees); mirrors mutation through the shared node reference. -/
def updateInModel (m : ModelState) (id : String) (f : LNode → LNode) :
    ModelState :=
  { m with
    root := updateById m.root id f
    borders := updateByIdList m.borders id f }

/-- Finds a node's parent across the border trees and the root row. -/
def findParentInModel (m : ModelState) (id : String) : Option LNode :=
  match findParentInList m.borders id with
  | some p => some p
  | none => findParentIn m.root id

/-- `Model.addNode` (part_007 lines 405-412): registration of a node in the
id index; a duplicate id throws. -/
def addNode (m : ModelState) (n : LNode) : Except String ModelState :=
  if (m.idMap.lookup n.getId).isSome then
    .error ("Error: each node must have a unique id, duplicate id:" ++ n.getId)
  else
    .ok { m with idMap := m.idMap ++ [(n.getId, n)] }

/-- The JSON payload of an AddNode action (`IJsonTabNode`); the embedding
requires the explicit id attribute (lazy random generation is not modelled). -/
structure TabJson where
  attrs : Attrs

/-- The action surface (src/src/model/Action.ts): a closed discriminated
union of commands. `DockLocation.getByName` is applied up front, so the
location is carried as the enum. -/
inductive Action where
  | addNode (json : TabJson) (toNode : String) (location : DockLocation)
      (index : Int) (select : Option Bool)
  | moveNode (fromNode : String) (toNode : String) (location : DockLocation)
      (index : Int) (select : Option Bool)
  | deleteTab (node : String)
  | deleteTabset (node : String)
  | renameTab (node : String) (text : String)
  | selectTab (tabNode : String)
  | setActiveTabset (tabsetNode : Option String)
  | adjustWeights (nodeId : String) (weights : List Int)
  | adjustBorderSplit (node : String) (pos : Int)
  | maximizeToggle (node : String)
  | updateModelAttributes (json : Attrs)
  | updateNodeAttributes (node : String) (json : Attrs)

/-- Runtime failures of `doAction`: a JS TypeError from dereferencing
`undefined`, or the duplicate-id Error thrown by `Model.addNode`. -/
inductive JsError where
  | typeError
  | dupIdError
deriving DecidableEq, Repr

/-- Arguments of a `drop` call made by the AddNode/MoveNode arms. -/
inductive DragSource where
  | newTab (json : TabJson)
  | existing (id : String)

structure DropArgs where
  drag : DragSource
  target : String
  location : DockLocation
  index : Int
  select : Option Bool

/-- The structural-mutation primitives whose bodies live in source files not
provided (`drop`, `TabNode.delete`, `TabSetNode.delete`): abstracted as
arbitrary state transformers, universally quantified in the theorems. -/
structure Env where
  dropFn : DropArgs → ModelState → ModelState
  deleteTabFn : String → ModelState → ModelState
  deleteNodeFn : String → ModelState → ModelState

/-- The TabNode construction performed by the ADD_NODE arm
(`new TabNode(this, action.data.json, true)`). -/
def newTabNode (json : TabJson) : LNode :=
  .mk .tab json.attrs Rect.emptyRect []

/-- The DELETE_TABSET arm's first loop: delete every closeable child tab of
the snapshot (part_007 lines 108-115). -/
def deleteCloseableChildren (env : Env) (children : List LNode)
    (m : ModelState) : ModelState :=
  children.foldl
    (fun s c => if c.isEnableClose then env.deleteTabFn c.getId s else s) m

/-- The switch body of `Model.doAction` (part_007 lines 73-204), arm by arm.
Errors propagate as in JS (an exception aborts `doAction` before the
id-index rebuild and the listener notifications). -/
def doActionSwitch (env : Env) (m : ModelState) :
    Action → Except JsError ModelState
  | .addNode json toId location index select =>
      -- new TabNode(this, json, true) registers the node: duplicate id throws
      if (m.idMap.lookup (newTabNode json).getId).isSome then
        .error .dupIdError
      else
        match m.idMap.lookup toId with
        | some toNode =>
            if toNode.kind = .tabset ∨ toNode.kind = .border
                ∨ toNode.kind = .row then
              .ok (env.dropFn ⟨.newTab json, toId, location, index, select⟩ m)
            else .ok m
        | none => .ok m
  | .moveNode fromId toId location index select =>
      match m.idMap.lookup fromId with
      | some fromNode =>
          if fromNode.kind = .tab ∨ fromNode.kind = .tabset
              ∨ fromNode.kind = .row then
            -- un-maximize first when moving the maximized tabset
            let m1 := if getMaximizedTabset m = some fromNode.getId then
                { m with maximizedTabSet := none } else m
            match m1.idMap.lookup toId with
            | some toNode =>
                if toNode.kind = .tabset ∨ toNode.kind = .border
                    ∨ toNode.kind = .row then
                  .ok (env.dropFn
                    ⟨.existing fromId, toId, location, index, select⟩ m1)
                else .ok m1
            | none => .ok m1
          else .ok m
      | none => .ok m
  | .deleteTab nodeId =>
      match m.idMap.lookup nodeId with
      | some n => if n.kind = .tab then .ok (env.deleteTabFn nodeId m) else .ok m
      | none => .ok m
  | .deleteTabset nodeId =>
      match m.idMap.lookup nodeId with
      | some n =>
          if n.kind = .tabset then
            let m1 := deleteCloseableChildren env n.children m
            -- node.getChildren() re-read through the live reference
            let m2 := match findByIdList m1.borders nodeId |>.orElse
                (fun _ => findById m1.root nodeId) with
              | some n' =>
                  if n'.children.isEmpty then env.deleteNodeFn nodeId m1 else m1
              | none => m1
            .ok { m2 with root := tidyNode m2.root }
          else .ok m
      | none => .ok m
  | .renameTab nodeId text =>
      match m.idMap.lookup nodeId with
      | some n =>
          if n.kind = .tab then
            .ok (updateInModel m nodeId
              (LNode.mapAttrs (fun a => setAttr a "name" (.strV text))))
          else .ok m
      | none => .ok m
  | .selectTab tabId =>
      match m.idMap.lookup tabId with
      | some tn =>
          if tn.kind = .tab then
            match findParentInModel m tn.getId with
            | some p =>
                let pos : Int :=
                  match p.children.findIdx? (fun c => c.getId = tn.getId) with
                  | some i => (i : Int)
                  | none => -1
                if p.kind = .border then
                  if p.getSelected == pos then
                    .ok (updateInModel m p.getId (LNode.setSelectedAttr (-1)))
                  else
                    .ok (updateInModel m p.getId (LNode.setSelectedAttr pos))
                else if p.kind = .tabset then
                  let m1 := if p.getSelected != pos then
                      updateInModel m p.getId (LNode.setSelectedAttr pos)
                    else m
                  .ok { m1 with activeTabSet := some p.getId }
                else .ok m
            -- tabNode.getParent() undefined: parent.getChildren() throws
            | none => .error .typeError
          else .ok m
      | none => .ok m
  | .setActiveTabset tabsetId =>
      match tabsetId with
      | none => .ok { m with activeTabSet := none }
      | some i =>
          match m.idMap.lookup i with
          | some n =>
              if n.kind = .tabset then
                .ok { m with activeTabSet := some n.getId }
              else .ok m
          | none => .ok m
  | .adjustWeights nodeId weights =>
      -- no instanceof guard: a missing id throws (row.getChildren() on
      -- undefined); a resolved node of any kind has its children mutated
      match m.idMap.lookup nodeId with
      | some _ =>
          .ok (updateInModel m nodeId (LNode.mapChildren (fun cs =>
            (cs.enum.map (fun ci =>
              LNode.setWeightAttr (weights[ci.1]?) ci.2)))))
      | none => .error .typeError
  | .adjustBorderSplit nodeId pos =>
      match m.idMap.lookup nodeId with
      | some n =>
          if n.kind = .border then
            .ok (updateInModel m nodeId
              (LNode.mapAttrs (fun a => setAttr a "size" (.numV pos))))
          else .ok m
      | none => .ok m
  | .maximizeToggle nodeId =>
      match m.idMap.lookup nodeId with
      | some n =>
          if n.kind = .tabset then
            if m.maximizedTabSet = some n.getId then
              .ok { m with maximizedTabSet := none }
            else
              .ok { m with maximizedTabSet := some n.getId,
                           activeTabSet := some n.getId }
          else .ok m
      | none => .ok m
  | .updateModelAttributes json =>
      .ok { m with globalAttrs := mergeAttrs m.globalAttrs json }
  | .updateNodeAttributes nodeId json =>
      -- idMap.get(...)! then node.updateAttrs: a missing id throws
      match m.idMap.lookup nodeId with
      | some _ =>
          .ok (updateInModel m nodeId (LNode.mapAttrs (fun a => mergeAttrs a json)))
      | none => .error .typeError

/-- The unconditional tail of `doAction` (part_007 lines 206-212): rebuild
the id index by a full traversal, then emit one notification per registered
change listener carrying the dispatched action. -/
def postProcess (a : Action) (m1 : ModelState) :
    ModelState × List (Nat × Action) :=
  let m2 := { m1 with idMap := buildIdMap m1.borders m1.root }
  (m2, m2.listeners.map (fun l => (l, a)))

/-- `Model.doAction` (part_007 lines 71-213): the switch body, then
unconditionally the id-index rebuild followed by the listener
notifications. The returned list is the notification sequence (listener
token paired with the action). -/
def doAction (env : Env) (m : ModelState) (a : Action) :
    Except JsError (ModelState × List (Nat × Action)) :=
  match doActionSwitch env m a with
  | .error e => .error e
  | .ok m1 => .ok (postProcess a m1)

/-- `Model.findDropTargetNode` (part_007 lines 415-418): the root row is
tried first, the border set only as a fallback. The BorderSet traversal is
modelled from the spec (first border node yielding a DropInfo). -/
def modelFindDropTargetNode (cd : LNode → Int → Int → Option DropInfo)
    (m : ModelState) (x y : Int) : Option DropInfo :=
  match nodeFindDropTarget cd (maximizedNode m) m.root x y with
  | some d => some d
  | none => m.borders.findSome? (fun b => cd b x y)

/-! ### JSON model documents (serialization round trip)

Modelled from the spec: the node (de)serializers (`RowNode.fromJson`,
`BorderSet.fromJson`, `AttributeDefinitions.toJson/fromJson`) are not among
the provided sources, only the `Model.fromJson`/`Model.toJson` wrappers
(part_007 lines 301-332) are. Per the spec (section 6), a document is
`{global, borders, layout}` where each node carries its explicitly-set
attributes; deserialization stores exactly the supplied attributes (defaults
are resolved through the fallback chain at read time, never stored), and
serialization emits exactly the stored attributes. Ids are required to be
explicit attributes (the lazy random id generation is not modelled). -/

/-- A JSON layout node: the `type` tag becomes the constructor. -/
inductive JNode where
  | row (attrs : Attrs) (children : List JNode)
  | tabset (attrs : Attrs) (children : List JNode)
  | tab (attrs : Attrs)

/-- A JSON border entry (`{type:"border", ...attrs, children:[tab...]}`). -/
structure JBorder where
  attrs : Attrs
  children : List JNode

/-- A JSON model document (`IJsonModel`): global attribute bag, borders,
and the root layout row. -/
structure JDoc where
  globalAttrs : Attrs
  borders : List JBorder
  layout : JNode

mutual
/-- Deserializes a layout node, storing exactly the supplied attributes. -/
def buildNode : JNode → LNode
  | .row a cs => .mk .row a Rect.emptyRect (buildNodeList cs)
  | .tabset a cs => .mk .tabset a Rect.emptyRect (buildNodeList cs)
  | .tab a => .mk .tab a Rect.emptyRect []

def buildNodeList : List JNode → List LNode
  | [] => []
  | j :: js => buildNode j :: buildNodeList js
end

mutual
/-- Serializes a layout node, emitting exactly the stored attributes.
Border nodes never occur inside the root row; the border arm is a
placeholder for totality. -/
def nodeToJson : LNode → JNode
  | .mk .row a _ cs => .row a (nodeToJsonList cs)
  | .mk .tabset a _ cs => .tabset a (nodeToJsonList cs)
  | .mk .tab a _ _ => .tab a
  | .mk .border a _ _ => .tab a

def nodeToJsonList : List LNode → List JNode
  | [] => []
  | n :: ns => nodeToJson n :: nodeToJsonList ns
end

/-- Deserializes one border entry. -/
def buildBorder (jb : JBorder) : LNode :=
  .mk .border jb.attrs Rect.emptyRect (buildNodeList jb.children)

/-- Serializes one border entry. -/
def borderToJson (n : LNode) : JBorder :=
  ⟨n.attrs, nodeToJsonList n.children⟩

/-- `Model.fromJson` (part_007 lines 301-312): loads global attributes,
borders and the layout row, then runs the initial tidy pass on the tree.
Node registration populates the id index before tidy runs. -/
def modelFromJson (d : JDoc) : ModelState :=
  let borders := d.borders.map buildBorder
  let builtRoot := buildNode d.layout
  { root := tidyNode builtRoot
    borders := borders
    idMap := buildIdMap borders builtRoot
    maximizedTabSet := none
    activeTabSet := none
    globalAttrs := d.globalAttrs
    listeners := [] }

/-- `Model.toJson` (part_007 lines 318-332): emits global attributes, the
borders and the layout tree. -/
def modelToJson (m : ModelState) : JDoc :=
  ⟨m.globalAttrs, m.borders.map borderToJson, nodeToJson m.root⟩

mutual
/-- Structural well-formedness of a layout subtree: rows contain rows and
tabsets, tabsets contain tabs. -/
def validRowChild : JNode → Bool
  | .row _ cs => validRowChildren cs
  | .tabset _ cs => validTabList cs
  | .tab _ => false

def validRowChildren : List JNode → Bool
  | [] => true
  | c :: cs => validRowChild c && validRowChildren cs

def validTabList : List JNode → Bool
  | [] => true
  | .tab _ :: cs => validTabList cs
  | .row _ _ :: _ => false
  | .tabset _ _ :: _ => false
end

/-- Validity of a whole document: the layout is a row of well-formed
children and every border holds only tabs. -/
def validDoc (d : JDoc) : Bool :=
  (match d.layout with
   | .row _ cs => validRowChildren cs
   | _ => false)
  && d.borders.all (fun b => validTabList b.children)

/-! ### Concrete fixtures used by witnesses and counterexamples -/

def tabA : LNode := .mk .tab [("id", .strV "tA")] Rect.emptyRect []
def tabB : LNode := .mk .tab [("id", .strV "tB")] Rect.emptyRect []
def ts1 : LNode := .mk .tabset [("id", .strV "ts1")] Rect.emptyRect [tabA, tabB]
def ts2 : LNode := .mk .tabset [("id", .strV "ts2")] Rect.emptyRect []
def root1 : LNode := .mk .row [("id", .strV "r1")] Rect.emptyRect [ts1, ts2]

/-- A small consistent model: a root row with two tabsets, two registered
change listeners, nothing maximized or active. -/
def m1 : ModelState :=
  { root := root1
    borders := []
    idMap := buildIdMap [] root1
    maximizedTabSet := none
    activeTabSet := none
    globalAttrs := []
    listeners := [0, 1] }

/-- An environment whose abstracted mutation primitives are the identity
(their bodies are irrelevant to the paths exercised by the witnesses). -/
def env0 : Env :=
  { dropFn := fun _ s => s
    deleteTabFn := fun _ s => s
    deleteNodeFn := fun _ s => s }

def btab0 : LNode := .mk .tab [("id", .strV "bt0")] Rect.emptyRect []
def btab1 : LNode := .mk .tab [("id", .strV "bt1")] Rect.emptyRect []
def btab2 : LNode := .mk .tab [("id", .strV "bt2")] Rect.emptyRect []

/-- A border with three tabs whose stored selected index is 2. -/
def border1 : LNode :=
  .mk .border [("id", .strV "b1"), ("selected", .numV 2)] Rect.emptyRect
    [btab0, btab1, btab2]

def rootB : LNode :=
  .mk .row [("id", .strV "rB")] Rect.emptyRect
    [.mk .tabset [("id", .strV "tsB")] Rect.emptyRect []]

/-- A consistent model with one border (selected tab at index 2). -/
def mb : ModelState :=
  { root := rootB
    borders := [border1]
    idMap := buildIdMap [border1] rootB
    maximizedTabSet := none
    activeTabSet := none
    globalAttrs := []
    listeners := [0] }

/-! ### Helper lemmas -/

theorem lookup_map_getId_eq_none (l : List LNode) (i : String)
    (h : i ∉ l.map LNode.getId) :
    List.lookup i (l.map (fun n => (n.getId, n))) = none := by
  induction l with
  | nil => rfl
  | cons a t ih =>
      simp only [List.map_cons, List.mem_cons, not_or] at h
      have hb : (i == a.getId) = false := by
        rw [beq_eq_false_iff_ne]
        exact h.1
      show (match i == a.getId with
            | true => some a
            | false => List.lookup i (t.map (fun n => (n.getId, n)))) = none
      rw [hb]
      exact ih h.2

theorem lookup_append_last (l : List (String × LNode)) (k : String) (v : LNode)
    (h : List.lookup k l = none) :
    List.lookup k (l ++ [(k, v)]) = some v := by
  induction l with
  | nil => simp [List.lookup]
  | cons a t ih =>
      obtain ⟨k', v'⟩ := a
      have h' : (match k == k' with
                 | true => some v'
                 | false => List.lookup k t) = none := h
      show (match k == k' with
            | true => some v'
            | false => List.lookup k (t ++ [(k, v)])) = some v
      cases hb : (k == k') with
      | true =>
          rw [hb] at h'
          exact absurd h' (by simp)
      | false =>
          rw [hb] at h'
          exact ih h'

theorem filter_length_le_one {α β : Type} (l : List α) (f : α → β)
    (q : α → Bool) (v : β) (hnd : (l.map f).Nodup)
    (hq : ∀ x, q x = true → f x = v) :
    (l.filter q).length ≤ 1 := by
  induction l with
  | nil => simp
  | cons a t ih =>
      simp only [List.map_cons, List.nodup_cons] at hnd
      by_cases hqa : q a = true
      · have hfilter : t.filter q = [] := by
          rw [List.filter_eq_nil_iff]
          intro x hx hqx
          have hfx : f x = v := hq x hqx
          have hfa : f a = v := hq a hqa
          exact hnd.1 (hfa ▸ hfx ▸ List.mem_map_of_mem f hx)
        simp [List.filter_cons, hqa, hfilter]
      · simp only [List.filter_cons, hqa]
        simpa using ih hnd.2

/-! ### Claim theorems -/

/-- C2: after any switch arm of `doAction` completes, the id index of the
resulting model equals the full borders-then-root traversal rebuild, and the
notification sequence pairs every registered change listener exactly once
with the dispatched action, for every environment, model and action —
including actions that were silently ignored as invalid. -/
theorem doAction_rebuilds_index_and_notifies :
    ∀ (env : Env) (m : ModelState) (a : Action)
      (res : ModelState × List (Nat × Action)),
    doAction env m a = .ok res →
    res.1.idMap = buildIdMap res.1.borders res.1.root ∧
    res.2 = res.1.listeners.map (fun l => (l, a)) := by
  intro env m a res h
  unfold doAction at h
  cases hs : doActionSwitch env m a with
  | error e => rw [hs] at h; exact absurd h (by simp)
  | ok m1 =>
      rw [hs] at h
      simp only [Except.ok.injEq] at h
      subst h
      exact ⟨rfl, rfl⟩

/-- C2 witness: dispatching a SelectTab with a nonexistent id on the
concrete model `m1` (an ignored action) still rebuilds the index and fires
both listeners once each. -/
theorem doAction_rebuilds_index_and_notifies_witness :
    m1.idMap = buildIdMap m1.borders m1.root ∧
    ([(0, Action.selectTab "nope"), (1, Action.selectTab "nope")]
        : List (Nat × Action)) =
      m1.listeners.map (fun l => (l, Action.selectTab "nope")) :=
  doAction_rebuilds_index_and_notifies env0 m1 (.selectTab "nope")
    (m1, [(0, .selectTab "nope"), (1, .selectTab "nope")]) rfl

/-- C7: `Model.addNode` throws the duplicate-id error when the node's id is
already bound in the id index (producing no updated state), and on a fresh
id returns the state whose index additionally binds the new node. -/
theorem addNode_duplicate_id_fatal :
    ∀ (m : ModelState) (n : LNode),
    ((m.idMap.lookup n.getId).isSome →
        addNode m n = .error
          ("Error: each node must have a unique id, duplicate id:" ++ n.getId)) ∧
    (m.idMap.lookup n.getId = none →
        addNode m n = .ok { m with idMap := m.idMap ++ [(n.getId, n)] } ∧
        (m.idMap ++ [(n.getId, n)]).lookup n.getId = some n) := by
  intro m n
  constructor
  · intro h
    unfold addNode
    rw [if_pos h]
  · intro h
    refine ⟨?_, lookup_append_last _ _ _ h⟩
    unfold addNode
    rw [if_neg (by simp [h])]

/-- C7 witness: registering `tabA` (id "tA", already present in `m1`) throws
the duplicate-id error, while a fresh tab registers successfully and becomes
resolvable. -/
theorem addNode_duplicate_id_fatal_witness :
    addNode m1 tabA = .error
      ("Error: each node must have a unique id, duplicate id:" ++ tabA.getId) ∧
    (addNode m1 (.mk .tab [("id", .strV "tC")] Rect.emptyRect []) =
        .ok { m1 with idMap := m1.idMap ++
          [("tC", .mk .tab [("id", .strV "tC")] Rect.emptyRect [])] } ∧
      (m1.idMap ++ [("tC", LNode.mk .tab [("id", .strV "tC")] Rect.emptyRect [])]).lookup
          "tC" = some (.mk .tab [("id", .strV "tC")] Rect.emptyRect [])) :=
  ⟨(addNode_duplicate_id_fatal m1 tabA).1 rfl,
   (addNode_duplicate_id_fatal m1 (.mk .tab [("id", .strV "tC")] Rect.emptyRect [])).2 rfl⟩

/-- C9: a MoveNode whose source resolves to the currently maximized tabset
but whose target id does not resolve to a TabSet, Border or Row completes
normally, clears the maximized-tabset state, and leaves the tree (root row
and borders) unchanged — the un-maximize step runs before the target is
validated, so the invalid move is not atomic. -/
theorem moveNode_unmaximize_not_atomic :
    ∀ (env : Env) (m : ModelState) (fromId toId : String)
      (loc : DockLocation) (idx : Int) (sel : Option Bool) (fn : LNode),
    m.idMap.lookup fromId = some fn →
    fn.kind = .tabset →
    getMaximizedTabset m = some fn.getId →
    (∀ tn, m.idMap.lookup toId = some tn →
        ¬(tn.kind = .tabset ∨ tn.kind = .border ∨ tn.kind = .row)) →
    (doAction env m (.moveNode fromId toId loc idx sel)).toOption.map
        (fun r => (r.1.root, r.1.borders, getMaximizedTabset r.1)) =
      some (m.root, m.borders, none) := by
  intro env m fromId toId loc idx sel fn hfrom hkind hmax hto
  simp only [doAction, doActionSwitch, hfrom]
  rw [if_pos (Or.inr (Or.inl hkind))]
  rw [if_pos hmax]
  cases hl : List.lookup toId m.idMap with
  | none => simp only [hl]; rfl
  | some tn =>
      have htn := hto tn hl
      simp only [hl]
      rw [if_neg htn]
      rfl

/-- C9 witness: in `m1` with "ts1" maximized, moving "ts1" onto the tab id
"tA" (wrong kind) clears maximize while the tree is untouched. -/
theorem moveNode_unmaximize_not_atomic_witness :
    (doAction env0 { m1 with maximizedTabSet := some "ts1" }
        (.moveNode "ts1" "tA" .left (-1) none)).toOption.map
        (fun r => (r.1.root, r.1.borders, getMaximizedTabset r.1)) =
      some (({ m1 with maximizedTabSet := some "ts1" } : ModelState).root,
        ({ m1 with maximizedTabSet := some "ts1" } : ModelState).borders, none) :=
  moveNode_unmaximize_not_atomic env0 { m1 with maximizedTabSet := some "ts1" }
    "ts1" "tA" .left (-1) none ts1 rfl rfl rfl
    (by
      intro tn h
      have h' : (some tabA : Option LNode) = some tn := h
      cases Option.some.inj h'
      decide)

/-- An action whose node reference is invalid for the arm that handles it:
the referenced id is unbound in the id index, or bound to a node of the
wrong kind for that action. The two arms without an internal guard
(ADJUST_WEIGHTS and UPDATE_NODE_ATTRIBUTES, which throw on a missing id) are
excluded, as is AddNode whose constructed tab would collide with an existing
id (that path throws the duplicate-id error instead). -/
def invalidTarget (m : ModelState) : Action → Prop
  | .addNode json toId _ _ _ =>
      m.idMap.lookup (newTabNode json).getId = none ∧
      (∀ n, m.idMap.lookup toId = some n →
        ¬(n.kind = .tabset ∨ n.kind = .border ∨ n.kind = .row))
  | .moveNode fromId toId _ _ _ =>
      (∀ n, m.idMap.lookup fromId = some n →
        ¬(n.kind = .tab ∨ n.kind = .tabset ∨ n.kind = .row)) ∨
      (∀ n, m.idMap.lookup toId = some n →
        ¬(n.kind = .tabset ∨ n.kind = .border ∨ n.kind = .row))
  | .deleteTab nodeId => ∀ n, m.idMap.lookup nodeId = some n → n.kind ≠ .tab
  | .deleteTabset nodeId =>
      ∀ n, m.idMap.lookup nodeId = some n → n.kind ≠ .tabset
  | .renameTab nodeId _ => ∀ n, m.idMap.lookup nodeId = some n → n.kind ≠ .tab
  | .selectTab nodeId => ∀ n, m.idMap.lookup nodeId = some n → n.kind ≠ .tab
  | .setActiveTabset o =>
      match o with
      | some i => ∀ n, m.idMap.lookup i = some n → n.kind ≠ .tabset
      | none => False
  | .adjustWeights _ _ => False
  | .adjustBorderSplit nodeId _ =>
      ∀ n, m.idMap.lookup nodeId = some n → n.kind ≠ .border
  | .maximizeToggle nodeId =>
      ∀ n, m.idMap.lookup nodeId = some n → n.kind ≠ .tabset
  | .updateModelAttributes _ => False
  | .updateNodeAttributes _ _ => False

/-- C1 (amended): for every action carrying an internal instanceof guard
(AddNode, MoveNode, DeleteTab, DeleteTabset, RenameTab, SelectTab,
SetActiveTabset, AdjustBorderSplit, MaximizeToggle), an invalid node
reference is silently ignored: `doAction` completes normally without
mutating the tree (root row and borders unchanged), for every environment
of structural-mutation primitives. -/
theorem invalid_target_silently_ignored :
    ∀ (env : Env) (m : ModelState) (a : Action), invalidTarget m a →
    (doAction env m a).toOption.map (fun r => (r.1.root, r.1.borders)) =
      some (m.root, m.borders) := by
  intro env m a h
  cases a with
  | addNode json toId location index select =>
      obtain ⟨hfresh, hto⟩ := h
      simp only [doAction, doActionSwitch, hfresh, Option.isSome_none,
        Bool.false_eq_true, if_false]
      cases hl : m.idMap.lookup toId with
      | none => simp only [hl]; rfl
      | some tn =>
          simp only [hl]
          rw [if_neg (hto tn hl)]
          rfl
  | moveNode fromId toId location index select =>
      cases hl : m.idMap.lookup fromId with
      | none => simp only [doAction, doActionSwitch, hl]; rfl
      | some fn =>
          cases h with
          | inl hfrom =>
              simp only [doAction, doActionSwitch, hl]
              rw [if_neg (hfrom fn hl)]
              rfl
          | inr hto =>
              simp only [doAction, doActionSwitch, hl]
              by_cases hk : fn.kind = .tab ∨ fn.kind = .tabset ∨ fn.kind = .row
              · rw [if_pos hk]
                cases hl2 : m.idMap.lookup toId with
                | none =>
                    by_cases hmx : getMaximizedTabset m = some fn.getId
                    · rw [if_pos hmx]; simp only [hl2]; rfl
                    · rw [if_neg hmx]; simp only [hl2]; rfl
                | some tn =>
                    by_cases hmx : getMaximizedTabset m = some fn.getId
                    · rw [if_pos hmx]
                      simp only [hl2]
                      rw [if_neg (hto tn hl2)]
                      rfl
                    · rw [if_neg hmx]
                      simp only [hl2]
                      rw [if_neg (hto tn hl2)]
                      rfl
              · rw [if_neg hk]
                rfl
  | deleteTab nodeId =>
      cases hl : m.idMap.lookup nodeId with
      | none => simp only [doAction, doActionSwitch, hl]; rfl
      | some n =>
          simp only [doAction, doActionSwitch, hl]
          rw [if_neg (h n hl)]
          rfl
  | deleteTabset nodeId =>
      cases hl : m.idMap.lookup nodeId with
      | none => simp only [doAction, doActionSwitch, hl]; rfl
      | some n =>
          simp only [doAction, doActionSwitch, hl]
          rw [if_neg (h n hl)]
          rfl
  | renameTab nodeId text =>
      cases hl : m.idMap.lookup nodeId with
      | none => simp only [doAction, doActionSwitch, hl]; rfl
      | some n =>
          simp only [doAction, doActionSwitch, hl]
          rw [if_neg (h n hl)]
          rfl
  | selectTab nodeId =>
      cases hl : m.idMap.lookup nodeId with
      | none => simp only [doAction, doActionSwitch, hl]; rfl
      | some n =>
          simp only [doAction, doActionSwitch, hl]
          rw [if_neg (h n hl)]
          rfl
  | setActiveTabset o =>
      cases o with
      | none => exact absurd h (by simp [invalidTarget])
      | some i =>
          cases hl : m.idMap.lookup i with
          | none => simp only [doAction, doActionSwitch, hl]; rfl
          | some n =>
              simp only [doAction, doActionSwitch, hl]
              rw [if_neg (h n hl)]
              rfl
  | adjustWeights nodeId weights => exact absurd h (by simp [invalidTarget])
  | adjustBorderSplit nodeId pos =>
      cases hl : m.idMap.lookup nodeId with
      | none => simp only [doAction, doActionSwitch, hl]; rfl
      | some n =>
          simp only [doAction, doActionSwitch, hl]
          rw [if_neg (h n hl)]
          rfl
  | maximizeToggle nodeId =>
      cases hl : m.idMap.lookup nodeId with
      | none => simp only [doAction, doActionSwitch, hl]; rfl
      | some n =>
          simp only [doAction, doActionSwitch, hl]
          rw [if_neg (h n hl)]
          rfl
  | updateModelAttributes json => exact absurd h (by simp [invalidTarget])
  | updateNodeAttributes nodeId json => exact absurd h (by simp [invalidTarget])

/-- C1 witness: DeleteTab aimed at the tabset id "ts1" (wrong kind) on the
concrete model `m1` completes normally with the tree untouched. -/
theorem invalid_target_silently_ignored_witness :
    (doAction env0 m1 (.deleteTab "ts1")).toOption.map
        (fun r => (r.1.root, r.1.borders)) = some (m1.root, m1.borders) :=
  invalid_target_silently_ignored env0 m1 (.deleteTab "ts1")
    (by
      intro n h
      have h' : (some ts1 : Option LNode) = some n := h
      cases Option.some.inj h'
      decide)

/-- C1 counterexample: the claim as stated is false. On the concrete model
`m1`: AdjustWeights with the unbound id "missing" throws a TypeError
(`row.getChildren()` on undefined), UpdateNodeAttributes with an unbound id
throws likewise, and AdjustWeights aimed at the tabset "ts1" (wrong kind —
no instanceof guard exists in that arm) mutates the tree, writing weight 7
onto the tab "tA" which previously had no weight attribute. -/
theorem doAction_invalid_not_always_ignored_cex :
    doAction env0 m1 (.adjustWeights "missing" [1]) = .error .typeError ∧
    doAction env0 m1 (.updateNodeAttributes "missing" []) = .error .typeError ∧
    (doAction env0 m1 (.adjustWeights "ts1" [7])).toOption.map
        (fun r => (findById r.1.root "tA").map
          (fun n => getAttr n.attrs "weight")) =
      some (some (.numV 7)) ∧
    getAttr tabA.attrs "weight" = .undefV :=
  ⟨rfl, rfl, rfl, rfl⟩

mutual
theorem nodeToJson_buildNode : ∀ j : JNode, nodeToJson (buildNode j) = j
  | .row a cs => by
      simp only [buildNode, nodeToJson]
      rw [nodeToJsonList_buildNodeList cs]
  | .tabset a cs => by
      simp only [buildNode, nodeToJson]
      rw [nodeToJsonList_buildNodeList cs]
  | .tab a => rfl

theorem nodeToJsonList_buildNodeList :
    ∀ js : List JNode, nodeToJsonList (buildNodeList js) = js
  | [] => rfl
  | j :: js => by
      simp only [buildNodeList, nodeToJsonList]
      rw [nodeToJson_buildNode j, nodeToJsonList_buildNodeList js]
end

theorem borderToJson_buildBorder (jb : JBorder) :
    borderToJson (buildBorder jb) = jb := by
  obtain ⟨a, cs⟩ := jb
  simp only [buildBorder, borderToJson, LNode.attrs, LNode.children]
  rw [nodeToJsonList_buildNodeList]

/-- Number of children of a row document node (a discriminating
observation used to separate structurally different documents). -/
def jRowChildCount : JNode → Nat
  | .row _ cs => cs.length
  | _ => 0

/-- A structurally valid document whose layout is not in tidy normal form:
the root row holds a tabset with one tab and, beside it, an empty row. -/
def badDoc : JDoc :=
  ⟨[],
   [],
   .row [("id", .strV "br")]
     [.tabset [("id", .strV "bts")] [.tab [("id", .strV "bt")]],
      .row [("id", .strV "bre")] []]⟩

/-- C8 counterexample: the claim as stated is false. `badDoc` is a valid
document (well-formed rows/tabsets/tabs), yet `toJson (fromJson badDoc)` is
not structurally equivalent to it: the initial tidy pass run by `fromJson`
(part_007 line 310) removes the empty inner row, so the root row comes back
with one child instead of two. -/
theorem fromJson_tidy_breaks_roundtrip_cex :
    validDoc badDoc = true ∧
    modelToJson (modelFromJson badDoc) ≠ badDoc ∧
    jRowChildCount (modelToJson (modelFromJson badDoc)).layout = 1 ∧
    jRowChildCount badDoc.layout = 2 := by
  refine ⟨rfl, ?_, rfl, rfl⟩
  intro h
  have h2 : jRowChildCount (modelToJson (modelFromJson badDoc)).layout =
      jRowChildCount badDoc.layout :=
    congrArg (fun d => jRowChildCount (JDoc.layout d)) h
  exact absurd h2 (by decide)

/-- C8 (amended): serialization round trip. For every structurally valid
document whose layout is already in tidy normal form (the initial tidy pass
of `fromJson` leaves it unchanged — no empty rows, no empty auto-delete
tabsets, no row whose only child is a row), `toJson (fromJson doc)`
reproduces the document exactly: same tree shape, same explicitly-set
attributes, and no defaulted attribute materializes as an explicit override
(deserialization stores exactly the supplied attributes and serialization
emits exactly the stored ones). -/
theorem toJson_fromJson_roundtrip :
    ∀ d : JDoc, validDoc d = true →
    tidyNode (buildNode d.layout) = buildNode d.layout →
    modelToJson (modelFromJson d) = d := by
  intro d _hvalid htidy
  obtain ⟨g, bs, layout⟩ := d
  simp only [modelFromJson, modelToJson]
  rw [htidy, nodeToJson_buildNode]
  have hbs : (bs.map buildBorder).map borderToJson = bs := by
    rw [List.map_map]
    have : (borderToJson ∘ buildBorder) = id := by
      funext jb
      exact borderToJson_buildBorder jb
    rw [this, List.map_id]
  rw [hbs]

/-- C8 witness: a concrete document — one global attribute, one border with
one tab, a layout row with one tabset of two tabs, an explicitly-set weight
on the tabset and no other attributes — round-trips to itself. -/
theorem toJson_fromJson_roundtrip_witness :
    modelToJson (modelFromJson
      ⟨[("splitterSize", .numV 8)],
       [⟨[("location", .strV "bottom")], [.tab [("id", .strV "jb0")]]⟩],
       .row [("id", .strV "jr")]
         [.tabset [("id", .strV "jts"), ("weight", .numV 50)]
           [.tab [("id", .strV "jt1"), ("name", .strV "One")],
            .tab [("id", .strV "jt2")]]]⟩) =
      ⟨[("splitterSize", .numV 8)],
       [⟨[("location", .strV "bottom")], [.tab [("id", .strV "jb0")]]⟩],
       .row [("id", .strV "jr")]
         [.tabset [("id", .strV "jts"), ("weight", .numV 50)]
           [.tab [("id", .strV "jt1"), ("name", .strV "One")],
            .tab [("id", .strV "jt2")]]]⟩ :=
  toJson_fromJson_roundtrip
    ⟨[("splitterSize", .numV 8)],
     [⟨[("location", .strV "bottom")], [.tab [("id", .strV "jb0")]]⟩],
     .row [("id", .strV "jr")]
       [.tabset [("id", .strV "jts"), ("weight", .numV 50)]
         [.tab [("id", .strV "jt1"), ("name", .strV "One")],
          .tab [("id", .strV "jt2")]]]⟩
    rfl rfl

/-- C4: SelectTab semantics. For a resolved tab with parent `p` at child
index `pos` and stored selected index `s`: when `p` is a Border, the action
writes selected := -1 if the tab was already selected and selected := pos
otherwise (pure toggle, active tabset untouched); when `p` is a TabSet, the
action writes selected := pos only when not already selected, and in either
case makes `p` the active tabset. -/
theorem selectTab_toggle :
    ∀ (env : Env) (m : ModelState) (tabId : String) (tn p : LNode)
      (pos s : Int),
    m.idMap.lookup tabId = some tn →
    tn.kind = .tab →
    findParentInModel m tn.getId = some p →
    (match p.children.findIdx? (fun c => c.getId = tn.getId) with
     | some i => (i : Int)
     | none => -1) = pos →
    p.getSelected = s →
    ((p.kind = .border →
        doAction env m (.selectTab tabId) =
          .ok (postProcess (.selectTab tabId)
            (updateInModel m p.getId
              (LNode.setSelectedAttr (if s = pos then -1 else pos))))) ∧
     (p.kind = .tabset →
        doAction env m (.selectTab tabId) =
          .ok (postProcess (.selectTab tabId)
            ({ (if s = pos then m
                else updateInModel m p.getId (LNode.setSelectedAttr pos)) with
               activeTabSet := some p.getId })))) := by
  intro env m tabId tn p pos s hl hk hp hpos hsel
  constructor
  · intro hborder
    simp only [doAction, doActionSwitch, hl, if_pos hk, hp]
    rw [hpos, hsel, if_pos hborder]
    by_cases hsp : s = pos
    · rw [if_pos (by simp [hsp]), if_pos hsp]
    · rw [if_neg (by simp [hsp]), if_neg hsp]
  · intro htabset
    have hnb : ¬(p.kind = .border) := by rw [htabset]; decide
    simp only [doAction, doActionSwitch, hl, if_pos hk, hp]
    rw [hpos, hsel, if_neg hnb, if_pos htabset]
    by_cases hsp : s = pos
    · rw [if_neg (by simp [hsp]), if_pos hsp]
    · rw [if_pos (by simp [hsp]), if_neg hsp]

/-- C4 witness: on the concrete border model `mb` (selected index 2, tab
"bt2" at index 2), SelectTab("bt2") writes selected := -1 (proved by the
theorem), observed as -1 on the border afterwards; dispatching the same
action again on the resulting state restores selected = 2. -/
theorem selectTab_toggle_witness :
    doAction env0 mb (.selectTab "bt2") =
      .ok (postProcess (.selectTab "bt2")
        (updateInModel mb "b1" (LNode.setSelectedAttr (-1)))) ∧
    (doAction env0 mb (.selectTab "bt2")).toOption.map
        (fun r => (findByIdList r.1.borders "b1").map LNode.getSelected) =
      some (some (-1)) ∧
    ((doAction env0 mb (.selectTab "bt2")).toOption.map
        (fun r =>
          (doAction env0 r.1 (.selectTab "bt2")).toOption.map
            (fun r2 => (findByIdList r2.1.borders "b1").map LNode.getSelected))) =
      some (some (some 2)) :=
  ⟨(selectTab_toggle env0 mb "bt2" btab2 border1 2 2 rfl rfl rfl rfl rfl).1 rfl,
   rfl, rfl⟩

/-- All nodes of the model, in the visit order of `visitNodes`. -/
def allModelNodes (m : ModelState) : List LNode :=
  collectNodesList m.borders ++ collectNodes m.root

/-- `TabSetNode.isMaximized`: whether the model's maximized pointer is this
tabset (object identity read as id identity). -/
def isMaximizedTabsetB (m : ModelState) (n : LNode) : Bool :=
  n.kind == .tabset && m.maximizedTabSet == some n.getId

/-- Number of tabsets in the whole model reporting maximized. -/
def countMaximized (m : ModelState) : Nat :=
  ((allModelNodes m).filter (isMaximizedTabsetB m)).length

/-- The unique-id invariant (enforced by `Model.addNode` at construction). -/
def uniqueIds (m : ModelState) : Prop :=
  ((allModelNodes m).map LNode.getId).Nodup

/-- One MaximizeToggle dispatch (the arm never throws, so the error
fallback of this embedding artifact is unreachable). -/
def stepMax (env : Env) (s : ModelState) (i : String) : ModelState :=
  match doAction env s (.maximizeToggle i) with
  | .ok r => r.1
  | .error _ => s

theorem stepMax_tree (env : Env) (s : ModelState) (i : String) :
    (stepMax env s i).root = s.root ∧ (stepMax env s i).borders = s.borders := by
  unfold stepMax
  cases hl : s.idMap.lookup i with
  | none => simp only [doAction, doActionSwitch, hl]; exact ⟨rfl, rfl⟩
  | some n =>
      by_cases hk : n.kind = .tabset
      · by_cases hm : s.maximizedTabSet = some n.getId
        · simp only [doAction, doActionSwitch, hl, if_pos hk, if_pos hm]
          exact ⟨rfl, rfl⟩
        · simp only [doAction, doActionSwitch, hl, if_pos hk, if_neg hm]
          exact ⟨rfl, rfl⟩
      · simp only [doAction, doActionSwitch, hl, if_neg hk]
        exact ⟨rfl, rfl⟩

theorem foldl_stepMax_tree (env : Env) (ids : List String) :
    ∀ m : ModelState, (ids.foldl (stepMax env) m).root = m.root ∧
      (ids.foldl (stepMax env) m).borders = m.borders := by
  induction ids with
  | nil => intro m; exact ⟨rfl, rfl⟩
  | cons i ids ih =>
      intro m
      rw [List.foldl_cons]
      obtain ⟨hr, hb⟩ := ih (stepMax env m i)
      obtain ⟨hr', hb'⟩ := stepMax_tree env m i
      exact ⟨hr.trans hr', hb.trans hb'⟩

theorem countMaximized_le_one (m : ModelState) (h : uniqueIds m) :
    countMaximized m ≤ 1 := by
  unfold countMaximized
  cases hmx : m.maximizedTabSet with
  | none =>
      have hnil : (allModelNodes m).filter (isMaximizedTabsetB m) = [] := by
        rw [List.filter_eq_nil_iff]
        intro x _
        simp [isMaximizedTabsetB, hmx]
      rw [hnil]
      simp
  | some v =>
      refine filter_length_le_one _ LNode.getId _ v h ?_
      intro x hx
      simp only [isMaximizedTabsetB, hmx, Bool.and_eq_true, beq_iff_eq,
        Option.some.injEq] at hx
      exact hx.2.symm

/-- C3: maximize exclusivity and toggle semantics. In a model with unique
ids, after any sequence of MaximizeToggle dispatches at most one tabset in
the whole model reports maximized; toggling the currently maximized tabset
clears maximize (`getMaximizedTabset` becomes none), and toggling a
different tabset makes it both the maximized and the active tabset. -/
theorem maximizeToggle_exclusive :
    ∀ (env : Env) (m : ModelState), uniqueIds m →
    (∀ ids : List String, countMaximized (ids.foldl (stepMax env) m) ≤ 1) ∧
    (∀ (tid : String) (n : LNode), getNodeById m tid = some n →
        n.kind = .tabset → getMaximizedTabset m = some n.getId →
        (doAction env m (.maximizeToggle tid)).toOption.map
          (fun r => getMaximizedTabset r.1) = some none) ∧
    (∀ (tid : String) (n : LNode), getNodeById m tid = some n →
        n.kind = .tabset → getMaximizedTabset m ≠ some n.getId →
        (doAction env m (.maximizeToggle tid)).toOption.map
          (fun r => (getMaximizedTabset r.1, r.1.activeTabSet)) =
          some (some n.getId, some n.getId)) := by
  intro env m hu
  refine ⟨?_, ?_, ?_⟩
  · intro ids
    have htree := foldl_stepMax_tree env ids m
    have hu' : uniqueIds (ids.foldl (stepMax env) m) := by
      unfold uniqueIds allModelNodes at hu ⊢
      rw [htree.1, htree.2]
      exact hu
    exact countMaximized_le_one _ hu'
  · intro tid n hl hk hmx
    unfold getNodeById at hl
    unfold getMaximizedTabset at hmx
    simp only [doAction, doActionSwitch, hl, if_pos hk, if_pos hmx]
    rfl
  · intro tid n hl hk hmx
    unfold getNodeById at hl
    unfold getMaximizedTabset at hmx
    simp only [doAction, doActionSwitch, hl, if_pos hk, if_neg hmx]
    rfl

/-- C3 witness: on the concrete model `m1` (unique ids), a three-toggle
sequence leaves at most one maximized tabset, and toggling "ts1" from the
unmaximized state makes it the maximized and active tabset. -/
theorem maximizeToggle_exclusive_witness :
    countMaximized (["ts1", "ts2", "ts1"].foldl (stepMax env0) m1) ≤ 1 ∧
    (doAction env0 m1 (.maximizeToggle "ts1")).toOption.map
        (fun r => (getMaximizedTabset r.1, r.1.activeTabSet)) =
      some (some "ts1", some "ts1") :=
  ⟨(maximizeToggle_exclusive env0 m1 (by unfold uniqueIds; decide)).1
      ["ts1", "ts2", "ts1"],
   (maximizeToggle_exclusive env0 m1 (by unfold uniqueIds; decide)).2.2
      "ts1" ts1 rfl rfl (by decide)⟩

/-- C10: `Model.getActiveTabset` returns the stored active tabset only while
its id still resolves through the id index; once the rebuilt index no longer
contains the id (the node was removed from the tree), it returns undefined
even though the internal pointer still holds the id. -/
theorem getActiveTabset_stale_pointer :
    ∀ (m : ModelState) (i : String), m.activeTabSet = some i →
    (getNodeById m i = none → getActiveTabset m = none) ∧
    (∀ n, getNodeById m i = some n → getActiveTabset m = some i) ∧
    (m.idMap = buildIdMap m.borders m.root →
        i ∉ (collectNodesList m.borders ++ collectNodes m.root).map LNode.getId →
        getActiveTabset m = none) := by
  intro m i hact
  have hshape : getActiveTabset m =
      if (getNodeById m i).isSome then some i else none := by
    simp only [getActiveTabset, hact]
  refine ⟨?_, ?_, ?_⟩
  · intro hnone
    rw [hshape, hnone]
    rfl
  · intro n hsome
    rw [hshape, hsome]
    rfl
  · intro hmap hmem
    have hnone : getNodeById m i = none := by
      unfold getNodeById
      rw [hmap]
      unfold buildIdMap
      exact lookup_map_getId_eq_none _ _ hmem
    rw [hshape, hnone]
    rfl

/-- C5: `canDockInto` evaluates its checks in source order and rejects at
the first failure: a CENTER drop on a target with the drop flag disabled is
rejected outright; a CENTER drop of a named tabset is rejected once the drop
flag passed; a non-CENTER drop on a target with the divide flag disabled is
rejected; only when every structural check passes is the registered
allow-drop predicate consulted (its verdict is the result), and with no
predicate registered the result is true. -/
theorem canDockInto_check_order :
    ∀ (pOpt : Option (LNode → DropInfo → Bool)) (drag : LNode) (di : DropInfo),
    (di.location = .center → di.node.isEnableDrop = false →
        canDockInto pOpt drag (some di) = false) ∧
    (di.location = .center → di.node.isEnableDrop = true →
        drag.getTypeStr = "tabset" → (drag.getName).isSome →
        canDockInto pOpt drag (some di) = false) ∧
    (di.location ≠ .center → di.node.isEnableDivide = false →
        canDockInto pOpt drag (some di) = false) ∧
    (di.location = .center → di.node.isEnableDrop = true →
        (drag.getTypeStr = "tabset" → (drag.getName).isSome = false) →
        ((pOpt = none → canDockInto pOpt drag (some di) = true) ∧
         (∀ p, pOpt = some p → canDockInto pOpt drag (some di) = p drag di))) ∧
    (di.location ≠ .center → di.node.isEnableDivide = true →
        ((pOpt = none → canDockInto pOpt drag (some di) = true) ∧
         (∀ p, pOpt = some p → canDockInto pOpt drag (some di) = p drag di))) := by
  intro pOpt drag di
  refine ⟨?_, ?_, ?_, ?_, ?_⟩
  · intro hloc hdrop
    simp [canDockInto, hloc, hdrop]
  · intro hloc hdrop htype hname
    simp [canDockInto, hloc, hdrop, htype, hname]
  · intro hloc hdiv
    simp [canDockInto, hloc, hdiv]
  · intro hloc hdrop hnamed
    by_cases htype : drag.getTypeStr = "tabset"
    · have hname := hnamed htype
      constructor
      · intro hp
        simp [canDockInto, hloc, hdrop, htype, hname, hp]
      · intro p hp
        simp [canDockInto, hloc, hdrop, htype, hname, hp]
    · constructor
      · intro hp
        simp [canDockInto, hloc, hdrop, htype, hp]
      · intro p hp
        simp [canDockInto, hloc, hdrop, htype, hp]
  · intro hloc hdiv
    constructor
    · intro hp
      simp [canDockInto, hloc, hdiv, hp]
    · intro p hp
      simp [canDockInto, hloc, hdiv, hp]

/-- C5 witness: a CENTER drop onto a tabset with enableDrop=false is vetoed
even with an always-true predicate registered; with every structural check
passing and no predicate, the gate answers true. -/
theorem canDockInto_check_order_witness :
    canDockInto (some (fun _ _ => true)) tabA
      (some ⟨.mk .tabset [("id", .strV "tsD"), ("enableDrop", .boolV false)]
        Rect.emptyRect [], .center, -1⟩) = false ∧
    canDockInto none tabA (some ⟨ts2, .center, -1⟩) = true :=
  ⟨(canDockInto_check_order (some (fun _ _ => true)) tabA
      ⟨.mk .tabset [("id", .strV "tsD"), ("enableDrop", .boolV false)]
        Rect.emptyRect [], .center, -1⟩).1 rfl rfl,
   ((canDockInto_check_order none tabA ⟨ts2, .center, -1⟩).2.2.2.1 rfl rfl
      (fun h => by simp [tabA, LNode.getTypeStr, LNode.kind] at h)).1 rfl⟩

theorem nodeFindDropTargetList_eq_findSome :
    ∀ (cd : LNode → Int → Int → Option DropInfo) (maxN : Option LNode)
      (cs : List LNode) (x y : Int),
    nodeFindDropTargetList cd maxN cs x y =
      cs.findSome? (fun c => nodeFindDropTarget cd maxN c x y) := by
  intro cd maxN cs x y
  induction cs with
  | nil => rfl
  | cons c cs ih =>
      rw [List.findSome?_cons]
      show (match nodeFindDropTarget cd maxN c x y with
            | some d => some d
            | none => nodeFindDropTargetList cd maxN cs x y) = _
      cases nodeFindDropTarget cd maxN c x y with
      | none => exact ih
      | some d => rfl

/-- C6: when a tabset is maximized, drop-target resolution over the main
tree consults only that tabset's own drop test (no node underneath can
produce the DropInfo); otherwise resolution is containment-gated, asks the
node's own test first and then the children in order taking the first
non-undefined answer; the border set is consulted exactly when the main
tree yields nothing. -/
theorem findDropTarget_occlusion_and_order :
    ∀ (cd : LNode → Int → Int → Option DropInfo) (x y : Int),
    (∀ (mN n : LNode), nodeFindDropTarget cd (some mN) n x y =
        if Rect.containsPt n.rect x y then cd mN x y else none) ∧
    (∀ n : LNode, nodeFindDropTarget cd none n x y =
        if Rect.containsPt n.rect x y then
          (match cd n x y with
           | some d => some d
           | none => n.children.findSome?
               (fun c => nodeFindDropTarget cd none c x y))
        else none) ∧
    (∀ (m : ModelState) (d : DropInfo),
        nodeFindDropTarget cd (maximizedNode m) m.root x y = some d →
        modelFindDropTargetNode cd m x y = some d) ∧
    (∀ m : ModelState,
        nodeFindDropTarget cd (maximizedNode m) m.root x y = none →
        modelFindDropTargetNode cd m x y =
          m.borders.findSome? (fun b => cd b x y)) := by
  intro cd x y
  refine ⟨?_, ?_, ?_, ?_⟩
  · intro mN n
    obtain ⟨k, a, r, cs⟩ := n
    rfl
  · intro n
    obtain ⟨k, a, r, cs⟩ := n
    show (if Rect.containsPt r x y then
            match cd (.mk k a r cs) x y with
            | some d => some d
            | none => nodeFindDropTargetList cd none cs x y
          else none) = _
    rw [nodeFindDropTargetList_eq_findSome]
    rfl
  · intro m d h
    unfold modelFindDropTargetNode
    rw [h]
  · intro m h
    unfold modelFindDropTargetNode
    rw [h]

def tsX : LNode := .mk .tabset [("id", .strV "tsX")] ⟨0, 0, 50, 100⟩ []
def tsY : LNode := .mk .tabset [("id", .strV "tsY")] ⟨50, 0, 50, 100⟩ []
def rootXY : LNode := .mk .row [("id", .strV "rXY")] ⟨0, 0, 100, 100⟩ [tsX, tsY]

/-- A model with geometry: two side-by-side tabsets, "tsX" maximized. -/
def mXY : ModelState :=
  { root := rootXY
    borders := []
    idMap := buildIdMap [] rootXY
    maximizedTabSet := some "tsX"
    activeTabSet := none
    globalAttrs := []
    listeners := [] }

/-- A concrete per-node drop test: a tabset containing the pointer offers a
CENTER drop on itself. -/
def cdCenter : LNode → Int → Int → Option DropInfo :=
  fun n x y =>
    if n.kind == .tabset && Rect.containsPt n.rect x y then
      some ⟨n, .center, -1⟩
    else none

/-- C6 witness: with "tsX" maximized, a pointer at (60,10) — inside the
root and over "tsY" — resolves to nothing (only the maximized tabset's own
test is consulted and it fails), and the border fallback runs only because
the main tree yielded nothing; unmaximized, the same pointer resolves to
"tsY" by depth-first first-match. -/
theorem findDropTarget_occlusion_and_order_witness :
    nodeFindDropTarget cdCenter (some tsX) rootXY 60 10 = none ∧
    nodeFindDropTarget cdCenter none rootXY 60 10 =
      some ⟨tsY, .center, -1⟩ ∧
    modelFindDropTargetNode cdCenter mXY 60 10 =
      mXY.borders.findSome? (fun b => cdCenter b 60 10) :=
  ⟨(findDropTarget_occlusion_and_order cdCenter 60 10).1 tsX rootXY,
   (findDropTarget_occlusion_and_order cdCenter 60 10).2.1 rootXY,
   (findDropTarget_occlusion_and_order cdCenter 60 10).2.2.2 mXY rfl⟩

/-- C10 witness: with the active pointer at the unresolvable id "ghost",
`getActiveTabset` yields none via the rebuilt-index conjunct; with it at the
live id "ts1", the stored pointer is returned. -/
theorem getActiveTabset_stale_pointer_witness :
    getActiveTabset { m1 with activeTabSet := some "ghost" } = none ∧
    getActiveTabset { m1 with activeTabSet := some "ts1" } = some "ts1" :=
  ⟨(getActiveTabset_stale_pointer { m1 with activeTabSet := some "ghost" }
      "ghost" rfl).2.2 rfl (by decide),
   (getActiveTabset_stale_pointer { m1 with activeTabSet := some "ts1" }
      "ts1" rfl).2.1 ts1 rfl⟩

end Flex
